import Mathlib

/-!
Verification development for the EZ-Trip balance and settlement engine
(src/backend/server.py). The Python code stores money amounts as floats;
this embedding idealises them as rationals, so every arithmetic identity
is exact. Python rounds with banker's rounding at exact half-cent ties;
`round2` below rounds those ties upward instead. No statement in this file
depends on the behaviour at an exact half-cent tie.
-/

namespace EZTrip

/-- Member entry of a trip document (user_id and display name). -/
structure TripMember where
  user_id : String
  name : String
deriving DecidableEq, Repr

/-- Trip document: id, settlement currency, creator, member list. -/
structure Trip where
  trip_id : String
  currency : String
  created_by : String
  members : List TripMember
deriving DecidableEq, Repr

/-- One payer share of an expense. -/
structure ExpensePayer where
  user_id : String
  amount : ℚ
deriving DecidableEq, Repr

/-- One split share of an expense. -/
structure ExpenseSplit where
  user_id : String
  amount : ℚ
deriving DecidableEq, Repr

/-- Expense document as stored in db.expenses. -/
structure Expense where
  expense_id : String
  trip_id : String
  total_amount : ℚ
  payers : List ExpensePayer
  splits : List ExpenseSplit
deriving DecidableEq, Repr

/-- Refund document as stored in db.refunds. -/
structure Refund where
  refund_id : String
  expense_id : String
  trip_id : String
  amount : ℚ
  refunded_to : List String
deriving DecidableEq, Repr

/-- Settlement document as stored in db.settlements. -/
structure Settlement where
  settlement_id : String
  trip_id : String
  from_user_id : String
  to_user_id : String
  amount : ℚ
deriving DecidableEq, Repr

/-- BalanceEntry response model (user_id, name, balance). -/
structure BalanceEntry where
  user_id : String
  name : String
  balance : ℚ
deriving DecidableEq, Repr

/-- SettlementSuggestion response model. -/
structure SettlementSuggestion where
  from_user_id : String
  from_user_name : String
  to_user_id : String
  to_user_name : String
  amount : ℚ
  currency : String
deriving DecidableEq, Repr

/-- The in-memory image of the four MongoDB collections the engine reads. -/
structure Store where
  trips : List Trip
  expenses : List Expense
  refunds : List Refund
  settlements : List Settlement
deriving DecidableEq, Repr

/-- Python round(x, 2): round to the nearest multiple of 1/100
(tie behaviour is irrelevant to every statement below). -/
def round2 (x : ℚ) : ℚ := (round (100 * x) : ℤ) / 100

/-- Key order of a Python dict built from a list: first occurrence of each
key, in insertion order.  Models `\x7bm["user_id"]: 0 for m in members\x7d`. -/
def firstDedup : List String → List String
  | [] => []
  | x :: xs => x :: firstDedup (xs.filter (fun y => y != x))
termination_by l => l.length
decreasing_by
  simp only [List.length_cons]
  exact Nat.lt_succ_of_le (List.length_filter_le _ _)

/-- member_names.get(uid, "Unknown"): a dict comprehension keeps the value of
the last duplicate key, hence the lookup on the reversed member list. -/
def memberName (t : Trip) (uid : String) : String :=
  match t.members.reverse.find? (fun m => m.user_id == uid) with
  | some m => m.name
  | none => "Unknown"

/-- refunds_by_expense.get(expense_id, []): the refunds of one expense,
in fetch order. -/
def refundsFor (refunds : List Refund) (eid : String) : List Refund :=
  refunds.filter (fun r => r.expense_id == eid)

/-- Total the payer loop adds to the balance of uid for one expense
(the `in balances` guard is the identity for member ids, and non-member
ids are never read out of the dict). -/
def paidByMember (e : Expense) (uid : String) : ℚ :=
  ((e.payers.filter (fun p => p.user_id == uid)).map (fun p => p.amount)).sum

/-- Amount the recipient loop of one refund subtracts from the balance of
uid: per_person_refund = amount / len(refunded_to), once per occurrence of
uid in refunded_to (the division only runs when the loop body runs). -/
def refundDebit (r : Refund) (uid : String) : ℚ :=
  ((r.refunded_to.filter (fun u => u == uid)).length : ℚ)
    * (r.amount / (r.refunded_to.length : ℚ))

/-- Refund debits of uid accumulated over a list of refunds. -/
def refundDebits (rs : List Refund) (uid : String) : ℚ :=
  (rs.map (fun r => refundDebit r uid)).sum

/-- Amount the split loop subtracts from the balance of uid for one expense:
adjusted_split = net_amount * (split.amount / original_amount), guarded by
`if splits and original_amount > 0`. -/
def splitDebit (e : Expense) (net_amount : ℚ) (uid : String) : ℚ :=
  if e.splits ≠ [] ∧ 0 < e.total_amount then
    ((e.splits.filter (fun s => s.user_id == uid)).map
      (fun s => net_amount * (s.amount / e.total_amount))).sum
  else 0

/-- Net effect of one expense (with the refunds of the trip) on the balance
of uid: payers add, refund recipients subtract, adjusted splits subtract. -/
def expenseContribution (tripRefunds : List Refund) (e : Expense) (uid : String) : ℚ :=
  paidByMember e uid
    - refundDebits (refundsFor tripRefunds e.expense_id) uid
    - splitDebit e (e.total_amount - ((refundsFor tripRefunds e.expense_id).map
        (fun r => r.amount)).sum) uid

/-- Balance of uid before the final round(…, 2): expense fold plus the
settlement pass, over the records fetched for this trip. -/
def rawBalance (t : Trip) (expenses : List Expense) (refunds : List Refund)
    (settlements : List Settlement) (uid : String) : ℚ :=
  ((expenses.filter (fun e => e.trip_id == t.trip_id)).map
      (fun e => expenseContribution (refunds.filter (fun r => r.trip_id == t.trip_id)) e uid)).sum
    + ((settlements.filter (fun s => s.trip_id == t.trip_id)).map
        (fun s => (if s.from_user_id == uid then s.amount else 0)
          - (if s.to_user_id == uid then s.amount else 0))).sum

/-- GET /trips/\x7btrip_id\x7d/balances: one entry per key of the balances dict
(the member list), with the display name and the rounded balance. -/
def get_trip_balances (st : Store) (t : Trip) : List BalanceEntry :=
  (firstDedup (t.members.map (fun m => m.user_id))).map (fun uid =>
    { user_id := uid
      name := memberName t uid
      balance := round2 (rawBalance t st.expenses st.refunds st.settlements uid) })

/-- Planner entry: (user_id, name, remaining amount). -/
abbrev PlannerEntry := String × String × ℚ

/-- creditors = [(id, name, balance) for balances if balance > 0.01]. -/
def creditorsOf (bs : List BalanceEntry) : List PlannerEntry :=
  (bs.filter (fun b => decide ((1 : ℚ)/100 < b.balance))).map
    (fun b => (b.user_id, b.name, b.balance))

/-- debtors = [(id, name, -balance) for balances if balance < -0.01]. -/
def debtorsOf (bs : List BalanceEntry) : List PlannerEntry :=
  (bs.filter (fun b => decide (b.balance < -((1 : ℚ)/100)))).map
    (fun b => (b.user_id, b.name, -b.balance))

/-- sorted(…, key=amount, reverse=True): a stable descending sort by the
remaining amount (insertion sort is stable, like Python sorted). -/
def sortDesc (l : List PlannerEntry) : List PlannerEntry :=
  List.insertionSort (fun a b => b.2.2 ≤ a.2.2) l

/-- The suggestions emitted by the greedy while-loop of get_settlements.
Each iteration takes amount = min(credit, debt), emits a suggestion when
amount > 0.01, subtracts amount from both current entries and advances past
an entry exactly when its remainder drops below 0.01.  Subtracting the
minimum zeroes at least one current entry, so at least one pointer advances
every iteration; the current entry is kept (with its remainder) otherwise. -/
def greedySettlements (currency : String) :
    List PlannerEntry → List PlannerEntry → List SettlementSuggestion
  | [], _ => []
  | _ :: _, [] => []
  | c :: cs, d :: ds =>
    (if (1 : ℚ)/100 < min c.2.2 d.2.2 then
      [{ from_user_id := d.1, from_user_name := d.2.1,
         to_user_id := c.1, to_user_name := c.2.1,
         amount := round2 (min c.2.2 d.2.2), currency := currency }]
    else []) ++
    greedySettlements currency
      (if c.2.2 - min c.2.2 d.2.2 < 1/100 then cs
        else (c.1, c.2.1, c.2.2 - min c.2.2 d.2.2) :: cs)
      (if d.2.2 - min c.2.2 d.2.2 < 1/100 then ds
        else (d.1, d.2.1, d.2.2 - min c.2.2 d.2.2) :: ds)
termination_by cs ds => cs.length + ds.length
decreasing_by
  rcases le_total c.2.2 d.2.2 with h | h
  · have hc : c.2.2 - min c.2.2 d.2.2 < 1/100 := by rw [min_eq_left h]; norm_num
    rw [dif_pos hc]
    split <;> simp <;> omega
  · have hd : d.2.2 - min c.2.2 d.2.2 < 1/100 := by rw [min_eq_right h]; norm_num
    rw [dif_pos hd]
    split <;> simp <;> omega

/-- Number of iterations the greedy while-loop performs. -/
def greedySteps : List PlannerEntry → List PlannerEntry → ℕ
  | [], _ => 0
  | _ :: _, [] => 0
  | c :: cs, d :: ds =>
    1 + greedySteps
      (if c.2.2 - min c.2.2 d.2.2 < 1/100 then cs
        else (c.1, c.2.1, c.2.2 - min c.2.2 d.2.2) :: cs)
      (if d.2.2 - min c.2.2 d.2.2 < 1/100 then ds
        else (d.1, d.2.1, d.2.2 - min c.2.2 d.2.2) :: ds)
termination_by cs ds => cs.length + ds.length
decreasing_by
  rcases le_total c.2.2 d.2.2 with h | h
  · have hc : c.2.2 - min c.2.2 d.2.2 < 1/100 := by rw [min_eq_left h]; norm_num
    rw [dif_pos hc]
    split <;> simp <;> omega
  · have hd : d.2.2 - min c.2.2 d.2.2 < 1/100 := by rw [min_eq_right h]; norm_num
    rw [dif_pos hd]
    split <;> simp <;> omega

/-- The per-iteration transferred amounts min(credit, debt) of the loop. -/
def greedyTransfers : List PlannerEntry → List PlannerEntry → List ℚ
  | [], _ => []
  | _ :: _, [] => []
  | c :: cs, d :: ds =>
    min c.2.2 d.2.2 ::
    greedyTransfers
      (if c.2.2 - min c.2.2 d.2.2 < 1/100 then cs
        else (c.1, c.2.1, c.2.2 - min c.2.2 d.2.2) :: cs)
      (if d.2.2 - min c.2.2 d.2.2 < 1/100 then ds
        else (d.1, d.2.1, d.2.2 - min c.2.2 d.2.2) :: ds)
termination_by cs ds => cs.length + ds.length
decreasing_by
  rcases le_total c.2.2 d.2.2 with h | h
  · have hc : c.2.2 - min c.2.2 d.2.2 < 1/100 := by rw [min_eq_left h]; norm_num
    rw [dif_pos hc]
    split <;> simp <;> omega
  · have hd : d.2.2 - min c.2.2 d.2.2 < 1/100 := by rw [min_eq_right h]; norm_num
    rw [dif_pos hd]
    split <;> simp <;> omega

/-- The two remaining lists (current entry with its remainder included) at
the moment the while-loop exits; ([], []) means both sides were exhausted. -/
def greedyFinal : List PlannerEntry → List PlannerEntry →
    List PlannerEntry × List PlannerEntry
  | [], debtors => ([], debtors)
  | c :: cs, [] => (c :: cs, [])
  | c :: cs, d :: ds =>
    greedyFinal
      (if c.2.2 - min c.2.2 d.2.2 < 1/100 then cs
        else (c.1, c.2.1, c.2.2 - min c.2.2 d.2.2) :: cs)
      (if d.2.2 - min c.2.2 d.2.2 < 1/100 then ds
        else (d.1, d.2.1, d.2.2 - min c.2.2 d.2.2) :: ds)
termination_by cs ds => cs.length + ds.length
decreasing_by
  rcases le_total c.2.2 d.2.2 with h | h
  · have hc : c.2.2 - min c.2.2 d.2.2 < 1/100 := by rw [min_eq_left h]; norm_num
    rw [dif_pos hc]
    split <;> simp <;> omega
  · have hd : d.2.2 - min c.2.2 d.2.2 < 1/100 := by rw [min_eq_right h]; norm_num
    rw [dif_pos hd]
    split <;> simp <;> omega

/-- The settlement planner of GET /trips/\x7btrip_id\x7d/settlements applied to a
balance list. -/
def suggestSettlements (bs : List BalanceEntry) (currency : String) :
    List SettlementSuggestion :=
  greedySettlements currency (sortDesc (creditorsOf bs)) (sortDesc (debtorsOf bs))

/-- Final planner state on the balance list of a trip snapshot. -/
def plannerFinal (bs : List BalanceEntry) :
    List PlannerEntry × List PlannerEntry :=
  greedyFinal (sortDesc (creditorsOf bs)) (sortDesc (debtorsOf bs))

/-- GET /trips/\x7btrip_id\x7d/settlements. -/
def get_settlements (st : Store) (t : Trip) : List SettlementSuggestion :=
  suggestSettlements (get_trip_balances st t) t.currency

/-- Sum of the remaining amounts of a planner list. -/
def sumAmt (l : List PlannerEntry) : ℚ := (l.map (fun x => x.2.2)).sum

/-- Sum of the amounts of a suggestion list. -/
def suggestedSum (l : List SettlementSuggestion) : ℚ :=
  (l.map (fun s => s.amount)).sum

/-- An exact multiple of one cent, the form of every rounded balance. -/
def CentValue (x : ℚ) : Prop := ∃ k : ℤ, x = k / 100

/-- trip["members"] contains user_id (the members.user_id Mongo filter). -/
def isMemberOf (t : Trip) (uid : String) : Bool :=
  t.members.any (fun m => m.user_id == uid)

/-- Request body of POST /expenses. -/
structure ExpenseCreate where
  trip_id : String
  total_amount : ℚ
  payers : List ExpensePayer
  splits : List ExpenseSplit
deriving DecidableEq, Repr

/-- Request body of POST /refunds. -/
structure RefundCreate where
  expense_id : String
  amount : ℚ
  refunded_to : List String
deriving DecidableEq, Repr

/-- Request body of POST /settlements. -/
structure SettlementCreate where
  trip_id : String
  from_user_id : String
  to_user_id : String
  amount : ℚ
deriving DecidableEq, Repr

/-- POST /expenses: only checks that the trip exists with the caller as a
member, then inserts the document unchanged (newId stands for the uuid). -/
def create_expense (st : Store) (userId newId : String) (req : ExpenseCreate) :
    Except String (Store × Expense) :=
  match st.trips.find? (fun t => t.trip_id == req.trip_id && isMemberOf t userId) with
  | none => Except.error ("Trip not found")
  | some _ =>
    let doc : Expense :=
      { expense_id := newId, trip_id := req.trip_id,
        total_amount := req.total_amount, payers := req.payers, splits := req.splits }
    Except.ok ({ st with expenses := st.expenses ++ [doc] }, doc)

/-- POST /refunds: looks up the expense, checks the caller is a member of
its trip, then inserts the document unchanged. -/
def create_refund (st : Store) (userId newId : String) (req : RefundCreate) :
    Except String (Store × Refund) :=
  match st.expenses.find? (fun e => e.expense_id == req.expense_id) with
  | none => Except.error ("Expense not found")
  | some expense =>
    match st.trips.find? (fun t => t.trip_id == expense.trip_id && isMemberOf t userId) with
    | none => Except.error ("Trip not found")
    | some _ =>
      let doc : Refund :=
        { refund_id := newId, expense_id := req.expense_id, trip_id := expense.trip_id,
          amount := req.amount, refunded_to := req.refunded_to }
      Except.ok ({ st with refunds := st.refunds ++ [doc] }, doc)

/-- POST /settlements: checks the trip with the caller as a member and that
from_user_id and to_user_id are members, then inserts the document. -/
def create_settlement (st : Store) (userId newId : String) (req : SettlementCreate) :
    Except String (Store × Settlement) :=
  match st.trips.find? (fun t => t.trip_id == req.trip_id && isMemberOf t userId) with
  | none => Except.error ("Trip not found")
  | some trip =>
    if trip.members.any (fun m => m.user_id == req.from_user_id)
        && trip.members.any (fun m => m.user_id == req.to_user_id) then
      let doc : Settlement :=
        { settlement_id := newId, trip_id := req.trip_id,
          from_user_id := req.from_user_id, to_user_id := req.to_user_id,
          amount := req.amount }
      Except.ok ({ st with settlements := st.settlements ++ [doc] }, doc)
    else Except.error ("Invalid user IDs")

/-- DELETE /trips/\x7btrip_id\x7d: deletes the trip document, then delete_many on
db.expenses and db.refunds by trip_id.  The source issues no delete on
db.settlements. -/
def delete_trip (st : Store) (userId tripId : String) : Except String Store :=
  match st.trips.find? (fun t => t.trip_id == tripId && t.created_by == userId) with
  | none => Except.error ("Trip not found or not authorized")
  | some _ =>
    Except.ok
      { st with
        trips := st.trips.filter (fun t => t.trip_id != tripId)
        expenses := st.expenses.filter (fun e => e.trip_id != tripId)
        refunds := st.refunds.filter (fun r => r.trip_id != tripId) }

/-- Well-formedness of the records of one trip, as hypothesised by the
zero-sum claim: payer shares and split shares of every trip expense sum to
its positive total, all amounts are non-negative, every referenced member id
is in the member list, and (as the data model of the spec requires) every
refund names at least one recipient. -/
def WellFormedTrip (st : Store) (t : Trip) : Prop :=
  (∀ e ∈ st.expenses, e.trip_id = t.trip_id →
    ((e.payers.map (fun p => p.amount)).sum = e.total_amount ∧
     (e.splits.map (fun s => s.amount)).sum = e.total_amount ∧
     0 < e.total_amount ∧
     (∀ p ∈ e.payers, 0 ≤ p.amount ∧ p.user_id ∈ t.members.map (fun m => m.user_id)) ∧
     (∀ s ∈ e.splits, 0 ≤ s.amount ∧ s.user_id ∈ t.members.map (fun m => m.user_id)))) ∧
  (∀ r ∈ st.refunds, r.trip_id = t.trip_id →
    (0 ≤ r.amount ∧ r.refunded_to ≠ [] ∧
     ∀ u ∈ r.refunded_to, u ∈ t.members.map (fun m => m.user_id))) ∧
  (∀ s ∈ st.settlements, s.trip_id = t.trip_id →
    (0 ≤ s.amount ∧ s.from_user_id ∈ t.members.map (fun m => m.user_id) ∧
     s.to_user_id ∈ t.members.map (fun m => m.user_id)))

/-! Concrete trip snapshots used to instantiate and to refute the claims. -/

/-- Seven-member trip: expense of 7 paid by M0, split 1 each, refund 6 to M0. -/
def trip_c1 : Trip :=
  { trip_id := "t1", currency := "INR", created_by := "M0",
    members := [⟨"M0", "M0"⟩, ⟨"M1", "M1"⟩, ⟨"M2", "M2"⟩, ⟨"M3", "M3"⟩,
                ⟨"M4", "M4"⟩, ⟨"M5", "M5"⟩, ⟨"M6", "M6"⟩] }

/-- Expense of trip_c1. -/
def expense_c1 : Expense :=
  { expense_id := "e1", trip_id := "t1", total_amount := 7,
    payers := [⟨"M0", 7⟩],
    splits := [⟨"M0", 1⟩, ⟨"M1", 1⟩, ⟨"M2", 1⟩, ⟨"M3", 1⟩,
               ⟨"M4", 1⟩, ⟨"M5", 1⟩, ⟨"M6", 1⟩] }

/-- Refund of 6 on expense_c1, received by M0 alone. -/
def refund_c1 : Refund :=
  { refund_id := "r1", expense_id := "e1", trip_id := "t1",
    amount := 6, refunded_to := ["M0"] }

/-- Store of the seven-member snapshot. -/
def store_c1 : Store :=
  { trips := [trip_c1], expenses := [expense_c1], refunds := [refund_c1],
    settlements := [] }

/-- Two-member trip A, B for the worked refund example of the spec. -/
def trip_c2 : Trip :=
  { trip_id := "t2", currency := "INR", created_by := "A",
    members := [⟨"A", "A"⟩, ⟨"B", "B"⟩] }

/-- Expense of 3000 paid in full by A, split 1500/1500 between A and B. -/
def expense_c2 : Expense :=
  { expense_id := "e2", trip_id := "t2", total_amount := 3000,
    payers := [⟨"A", 3000⟩],
    splits := [⟨"A", 1500⟩, ⟨"B", 1500⟩] }

/-- Refund of 1500 on expense_c2, received by B alone. -/
def refund_c2 : Refund :=
  { refund_id := "r2", expense_id := "e2", trip_id := "t2",
    amount := 1500, refunded_to := ["B"] }

/-- Store of the worked refund example. -/
def store_c2 : Store :=
  { trips := [trip_c2], expenses := [expense_c2], refunds := [refund_c2],
    settlements := [] }

/-- One-member trip for the zero-total-expense snapshot. -/
def trip_c3 : Trip :=
  { trip_id := "t3", currency := "INR", created_by := "A",
    members := [⟨"A", "A"⟩] }

/-- Expense with total_amount 0 but a payer share of 10. -/
def expense_c3 : Expense :=
  { expense_id := "e3", trip_id := "t3", total_amount := 0,
    payers := [⟨"A", 10⟩], splits := [⟨"A", 0⟩] }

/-- Store holding the zero-total expense. -/
def store_c3 : Store :=
  { trips := [trip_c3], expenses := [expense_c3], refunds := [], settlements := [] }

/-- The same store with the zero-total expense absent. -/
def store_c3_base : Store :=
  { trips := [trip_c3], expenses := [], refunds := [], settlements := [] }

/-- Two-member trip for the negative-refund snapshot. -/
def trip_c4 : Trip :=
  { trip_id := "t4", currency := "INR", created_by := "A",
    members := [⟨"A", "A"⟩, ⟨"B", "B"⟩] }

/-- Expense of 100 paid by A, split 50/50. -/
def expense_c4 : Expense :=
  { expense_id := "e4", trip_id := "t4", total_amount := 100,
    payers := [⟨"A", 100⟩],
    splits := [⟨"A", 50⟩, ⟨"B", 50⟩] }

/-- Store before the negative refund is created. -/
def store_c4 : Store :=
  { trips := [trip_c4], expenses := [expense_c4], refunds := [], settlements := [] }

/-- Refund request with a negative amount. -/
def req_c4 : RefundCreate :=
  { expense_id := "e4", amount := -50, refunded_to := ["B"] }

/-- The store after the negative refund has been accepted. -/
def store_c4r : Store :=
  { store_c4 with
    refunds := [{ refund_id := "r4", expense_id := "e4", trip_id := "t4",
                  amount := -50, refunded_to := ["B"] }] }

/-- One-member trip whose expense names a payer id X that is not a member. -/
def trip_c5 : Trip :=
  { trip_id := "t5", currency := "INR", created_by := "A",
    members := [⟨"A", "A"⟩] }

/-- Expense of 100 paid by the non-member X, split entirely on A. -/
def expense_c5 : Expense :=
  { expense_id := "e5", trip_id := "t5", total_amount := 100,
    payers := [⟨"X", 100⟩], splits := [⟨"A", 100⟩] }

/-- Store of the dangling-payer snapshot. -/
def store_c5 : Store :=
  { trips := [trip_c5], expenses := [expense_c5], refunds := [], settlements := [] }

/-- Two-member trip for the settlement-pass instance. -/
def trip_c6 : Trip :=
  { trip_id := "t6", currency := "INR", created_by := "A",
    members := [⟨"A", "A"⟩, ⟨"B", "B"⟩] }

/-- Settlement of 30 from A to B on trip_c6. -/
def settlement_c6 : Settlement :=
  { settlement_id := "s6", trip_id := "t6", from_user_id := "A",
    to_user_id := "B", amount := 30 }

/-- Balance list with one member at +0.01 and one at -0.01. -/
def bs_c7 : List BalanceEntry :=
  [⟨"A", "A", 1/100⟩, ⟨"B", "B", -(1/100)⟩]

/-- Balance list summing to exactly zero whose debtors all sit inside the
tolerance band: one creditor at +0.02, two members at -0.01. -/
def bs_c8 : List BalanceEntry :=
  [⟨"A", "A", 2/100⟩, ⟨"B", "B", -(1/100)⟩, ⟨"C", "C", -(1/100)⟩]

/-- Balance list +0.02 / -0.02 for the planner instance. -/
def bs_w8 : List BalanceEntry :=
  [⟨"A", "A", 2/100⟩, ⟨"B", "B", -(2/100)⟩]

/-- Trip with one expense, one refund and one settlement, for deletion. -/
def trip_c9 : Trip :=
  { trip_id := "t9", currency := "INR", created_by := "A",
    members := [⟨"A", "A"⟩, ⟨"B", "B"⟩] }

/-- Expense of trip_c9. -/
def expense_c9 : Expense :=
  { expense_id := "e9", trip_id := "t9", total_amount := 100,
    payers := [⟨"A", 100⟩], splits := [⟨"B", 100⟩] }

/-- Refund of trip_c9. -/
def refund_c9 : Refund :=
  { refund_id := "r9", expense_id := "e9", trip_id := "t9",
    amount := 10, refunded_to := ["B"] }

/-- Settlement of trip_c9. -/
def settlement_c9 : Settlement :=
  { settlement_id := "s9", trip_id := "t9", from_user_id := "B",
    to_user_id := "A", amount := 40 }

/-- Store of the deletion snapshot. -/
def store_c9 : Store :=
  { trips := [trip_c9], expenses := [expense_c9], refunds := [refund_c9],
    settlements := [settlement_c9] }

/-- Balance list +0.03 / -0.02 / -0.02: the second loop iteration transfers
exactly 0.01 while both a creditor and a debtor remain. -/
def bs_c10 : List BalanceEntry :=
  [⟨"A", "A", 3/100⟩, ⟨"B", "B", -(2/100)⟩, ⟨"C", "C", -(2/100)⟩]

/-! Helper lemmas. -/

lemma sum_map_add_distrib {α : Type} (l : List α) (f g : α → ℚ) :
    (l.map (fun x => f x + g x)).sum = (l.map f).sum + (l.map g).sum := by
  induction l with
  | nil => simp
  | cons a l ih => simp only [List.map_cons, List.sum_cons, ih]; ring

lemma sum_map_sub_distrib {α : Type} (l : List α) (f g : α → ℚ) :
    (l.map (fun x => f x - g x)).sum = (l.map f).sum - (l.map g).sum := by
  induction l with
  | nil => simp
  | cons a l ih => simp only [List.map_cons, List.sum_cons, ih]; ring

lemma sum_map_swap {α : Type} (U : List String) (l : List α) (g : α → String → ℚ) :
    (U.map (fun u => (l.map (fun x => g x u)).sum)).sum
      = (l.map (fun x => (U.map (g x)).sum)).sum := by
  induction U with
  | nil => simp
  | cons u U ih =>
    simp only [List.map_cons, List.sum_cons, ih, ← sum_map_add_distrib]

lemma sum_if_single {M : Type} [AddCommMonoid M] (U : List String) (hU : U.Nodup)
    (x : String) (hx : x ∈ U) (c : M) :
    (U.map (fun u => if x == u then c else 0)).sum = c := by
  induction U with
  | nil => cases hx
  | cons u U ih =>
    rcases List.nodup_cons.mp hU with ⟨hu, hU2⟩
    rcases List.mem_cons.mp hx with rfl | hxU
    · have hz : ∀ v ∈ U, (if x == v then c else 0) = 0 := by
        intro v hv
        have hne : x ≠ v := by rintro rfl; exact hu hv
        simp [hne]
      simp only [List.map_cons, List.sum_cons, beq_self_eq_true, if_pos]
      rw [List.sum_eq_zero]
      · simp
      · intro y hy
        rcases List.mem_map.mp hy with ⟨v, hv, rfl⟩
        exact hz v hv
    · have hne : x ≠ u := by rintro rfl; exact hu hxU
      simp only [List.map_cons, List.sum_cons]
      rw [if_neg (by simp [hne]), ih hU2 hxU, zero_add]

lemma sum_filter_key {α : Type} (U : List String) (hU : U.Nodup) (l : List α)
    (key : α → String) (amt : α → ℚ) (hl : ∀ a ∈ l, key a ∈ U) :
    (U.map (fun u => ((l.filter (fun a => key a == u)).map amt).sum)).sum
      = (l.map amt).sum := by
  induction l with
  | nil => simp
  | cons a l ih =>
    have hstep : ∀ u, (((a :: l).filter (fun b => key b == u)).map amt).sum
        = (if key a == u then amt a else 0)
          + ((l.filter (fun b => key b == u)).map amt).sum := by
      intro u
      by_cases h : key a == u
      · simp [List.filter_cons, h]
      · simp [List.filter_cons, h]
    simp only [hstep]
    rw [sum_map_add_distrib, sum_if_single U hU (key a) (hl a (List.mem_cons_self a l)),
      ih (fun b hb => hl b (List.mem_cons_of_mem a hb))]
    simp

lemma count_occ_sum (U : List String) (hU : U.Nodup) (rt : List String)
    (hrt : ∀ v ∈ rt, v ∈ U) :
    (U.map (fun u => ((rt.filter (fun v => v == u)).length : ℚ))).sum
      = (rt.length : ℚ) := by
  induction rt with
  | nil => simp
  | cons v rt ih =>
    have hstep : ∀ u, (((v :: rt).filter (fun w => w == u)).length : ℚ)
        = (if v == u then (1 : ℚ) else 0)
          + ((rt.filter (fun w => w == u)).length : ℚ) := by
      intro u
      by_cases h : v == u
      · simp only [List.filter_cons, h, if_pos, List.length_cons]
        push_cast
        ring
      · simp [List.filter_cons, h]
    simp only [hstep]
    rw [sum_map_add_distrib, sum_if_single U hU v (hrt v (List.mem_cons_self v rt)),
      ih (fun w hw => hrt w (List.mem_cons_of_mem v hw))]
    simp only [List.length_cons]
    push_cast
    ring

lemma abs_sum_le_sum_abs_list (l : List ℚ) : |l.sum| ≤ (l.map (fun x => |x|)).sum := by
  induction l with
  | nil => simp
  | cons a l ih =>
    simp only [List.sum_cons, List.map_cons]
    calc |a + l.sum| ≤ |a| + |l.sum| := abs_add _ _
    _ ≤ |a| + (l.map (fun x => |x|)).sum := by linarith

lemma sum_le_length_mul (l : List ℚ) (c : ℚ) (h : ∀ x ∈ l, x ≤ c) (hc : 0 ≤ c) :
    l.sum ≤ (l.length : ℚ) * c := by
  induction l with
  | nil => simp
  | cons a l ih =>
    have ha := h a (List.mem_cons_self a l)
    have hl := ih (fun x hx => h x (List.mem_cons_of_mem a hx))
    simp only [List.sum_cons, List.length_cons]
    push_cast
    nlinarith

lemma mem_firstDedup {u : String} : ∀ {l : List String}, u ∈ firstDedup l ↔ u ∈ l := by
  intro l
  induction l using firstDedup.induct with
  | case1 => simp [firstDedup]
  | case2 x xs ih =>
    rw [firstDedup]
    constructor
    · intro h
      rcases List.mem_cons.mp h with rfl | h2
      · exact List.mem_cons_self _ _
      · have := ih.mp h2
        exact List.mem_cons_of_mem x (List.mem_of_mem_filter this)
    · intro h
      rcases List.mem_cons.mp h with rfl | h2
      · exact List.mem_cons_self _ _
      · by_cases hx : u = x
        · subst hx; exact List.mem_cons_self _ _
        · refine List.mem_cons_of_mem x (ih.mpr ?_)
          refine List.mem_filter.mpr ⟨h2, ?_⟩
          simp [hx]

lemma nodup_firstDedup : ∀ (l : List String), (firstDedup l).Nodup := by
  intro l
  induction l using firstDedup.induct with
  | case1 => simp [firstDedup]
  | case2 x xs ih =>
    rw [firstDedup]
    refine List.nodup_cons.mpr ⟨?_, ih⟩
    intro hmem
    have hx : x ∈ xs.filter (fun y => y != x) := mem_firstDedup.mp hmem
    have := List.of_mem_filter hx
    simp at this

lemma length_firstDedup_le : ∀ (l : List String), (firstDedup l).length ≤ l.length := by
  intro l
  induction l using firstDedup.induct with
  | case1 => simp [firstDedup]
  | case2 x xs ih =>
    rw [firstDedup]
    simp only [List.length_cons]
    have := List.length_filter_le (fun y => y != x) xs
    omega

lemma abs_round2_sub (x : ℚ) : |round2 x - x| ≤ 1 / 200 := by
  have h := abs_sub_round (100 * x)
  have hrw : round2 x - x = -((100 * x - (round (100 * x) : ℚ)) / 100) := by
    unfold round2; ring
  rw [hrw, abs_neg, abs_div]
  have h100 : |(100 : ℚ)| = 100 := by norm_num
  rw [h100]
  linarith

lemma centValue_round2 (x : ℚ) : CentValue (round2 x) :=
  ⟨round (100 * x), rfl⟩

lemma round2_cent_id {x : ℚ} (h : CentValue x) : round2 x = x := by
  obtain ⟨k, rfl⟩ := h
  unfold round2
  have : (100 : ℚ) * (k / 100) = (k : ℚ) := by ring
  rw [this, round_intCast]

lemma centValue_neg {x : ℚ} (h : CentValue x) : CentValue (-x) := by
  obtain ⟨k, rfl⟩ := h
  exact ⟨-k, by push_cast; ring⟩

lemma centValue_sub {x y : ℚ} (hx : CentValue x) (hy : CentValue y) :
    CentValue (x - y) := by
  obtain ⟨k, rfl⟩ := hx
  obtain ⟨m, rfl⟩ := hy
  exact ⟨k - m, by push_cast; ring⟩

lemma centValue_min {x y : ℚ} (hx : CentValue x) (hy : CentValue y) :
    CentValue (min x y) := by
  rcases le_total x y with h | h
  · rw [min_eq_left h]; exact hx
  · rw [min_eq_right h]; exact hy

lemma centValue_small_eq_zero {x : ℚ} (h : CentValue x) (h0 : 0 ≤ x)
    (h1 : x < 1 / 100) : x = 0 := by
  obtain ⟨k, rfl⟩ := h
  have hk0 : (0 : ℚ) ≤ (k : ℚ) := by linarith
  have hk1 : (k : ℚ) < 1 := by linarith
  have hz : k = 0 := by
    have h2 : (0 : ℤ) ≤ k := by exact_mod_cast hk0
    have h3 : k < 1 := by exact_mod_cast hk1
    omega
  rw [hz]
  norm_num

lemma sum_map_mul_const {α : Type} (l : List α) (f : α → ℚ) (c : ℚ) :
    (l.map (fun x => f x * c)).sum = (l.map f).sum * c := by
  induction l with
  | nil => simp
  | cons a l ih => simp only [List.map_cons, List.sum_cons, ih]; ring

lemma refundDebit_total (U : List String) (hU : U.Nodup) (r : Refund)
    (hne : r.refunded_to ≠ []) (hsub : ∀ v ∈ r.refunded_to, v ∈ U) :
    (U.map (fun u => refundDebit r u)).sum = r.amount := by
  unfold refundDebit
  rw [sum_map_mul_const U (fun u => ((r.refunded_to.filter (fun v => v == u)).length : ℚ)) _,
    count_occ_sum U hU r.refunded_to hsub]
  have hlen : (r.refunded_to.length : ℚ) ≠ 0 := by
    have : r.refunded_to.length ≠ 0 := by
      intro h0
      exact hne (List.eq_nil_of_length_eq_zero h0)
    exact_mod_cast this
  field_simp

lemma expenseContribution_total (U : List String) (hU : U.Nodup)
    (tripRefunds : List Refund) (e : Expense)
    (hpay_sum : (e.payers.map (fun p => p.amount)).sum = e.total_amount)
    (hsplit_sum : (e.splits.map (fun s => s.amount)).sum = e.total_amount)
    (hpos : 0 < e.total_amount)
    (hpay_mem : ∀ p ∈ e.payers, p.user_id ∈ U)
    (hsplit_mem : ∀ s ∈ e.splits, s.user_id ∈ U)
    (href : ∀ r ∈ refundsFor tripRefunds e.expense_id,
      r.refunded_to ≠ [] ∧ ∀ v ∈ r.refunded_to, v ∈ U) :
    (U.map (fun u => expenseContribution tripRefunds e u)).sum = 0 := by
  have hsplit_ne : e.splits ≠ [] := by
    intro h0
    rw [h0] at hsplit_sum
    simp at hsplit_sum
    exact absurd hsplit_sum.symm (ne_of_gt hpos)
  unfold expenseContribution
  rw [show (fun u => paidByMember e u
      - refundDebits (refundsFor tripRefunds e.expense_id) u
      - splitDebit e (e.total_amount - ((refundsFor tripRefunds e.expense_id).map
          (fun r => r.amount)).sum) u)
    = (fun u => (paidByMember e u
      - refundDebits (refundsFor tripRefunds e.expense_id) u)
      - splitDebit e (e.total_amount - ((refundsFor tripRefunds e.expense_id).map
          (fun r => r.amount)).sum) u) from rfl]
  rw [sum_map_sub_distrib, sum_map_sub_distrib]
  have hpaid : (U.map (fun u => paidByMember e u)).sum = e.total_amount := by
    unfold paidByMember
    rw [sum_filter_key U hU e.payers (fun p => p.user_id) (fun p => p.amount) hpay_mem]
    exact hpay_sum
  have hrefunds : (U.map (fun u =>
      refundDebits (refundsFor tripRefunds e.expense_id) u)).sum
      = ((refundsFor tripRefunds e.expense_id).map (fun r => r.amount)).sum := by
    unfold refundDebits
    rw [sum_map_swap U (refundsFor tripRefunds e.expense_id) (fun r u => refundDebit r u)]
    refine congrArg List.sum (List.map_congr_left ?_)
    intro r hr
    exact refundDebit_total U hU r (href r hr).1 (href r hr).2
  have hsplits : (U.map (fun u =>
      splitDebit e (e.total_amount - ((refundsFor tripRefunds e.expense_id).map
        (fun r => r.amount)).sum) u)).sum
      = e.total_amount - ((refundsFor tripRefunds e.expense_id).map
        (fun r => r.amount)).sum := by
    unfold splitDebit
    have hc : e.splits ≠ [] ∧ 0 < e.total_amount := ⟨hsplit_ne, hpos⟩
    simp only [if_pos hc]
    rw [sum_filter_key U hU e.splits (fun s => s.user_id)
      (fun s => (e.total_amount - ((refundsFor tripRefunds e.expense_id).map
        (fun r => r.amount)).sum) * (s.amount / e.total_amount)) hsplit_mem]
    rw [show (fun s : ExpenseSplit =>
        (e.total_amount - ((refundsFor tripRefunds e.expense_id).map
          (fun r => r.amount)).sum) * (s.amount / e.total_amount))
      = (fun s : ExpenseSplit =>
        (fun x : ExpenseSplit => x.amount) s
          * ((e.total_amount - ((refundsFor tripRefunds e.expense_id).map
            (fun r => r.amount)).sum) / e.total_amount)) from funext (fun s => by ring)]
    rw [sum_map_mul_const e.splits (fun x => x.amount) _, hsplit_sum]
    field_simp
  rw [hpaid, hrefunds, hsplits]
  ring

lemma settlement_delta_total (U : List String) (hU : U.Nodup) (s : Settlement)
    (hfrom : s.from_user_id ∈ U) (hto : s.to_user_id ∈ U) :
    (U.map (fun u => (if s.from_user_id == u then s.amount else 0)
      - (if s.to_user_id == u then s.amount else 0))).sum = 0 := by
  rw [sum_map_sub_distrib, sum_if_single U hU s.from_user_id hfrom s.amount,
    sum_if_single U hU s.to_user_id hto s.amount]
  ring

lemma rawBalance_sum_zero (st : Store) (t : Trip) (h : WellFormedTrip st t) :
    ((firstDedup (t.members.map (fun m => m.user_id))).map
      (fun u => rawBalance t st.expenses st.refunds st.settlements u)).sum = 0 := by
  obtain ⟨hexp, href, hset⟩ := h
  set U := firstDedup (t.members.map (fun m => m.user_id)) with hUdef
  have hU : U.Nodup := nodup_firstDedup _
  have hmemU : ∀ u, u ∈ t.members.map (fun m => m.user_id) → u ∈ U := by
    intro u hu
    exact mem_firstDedup.mpr hu
  unfold rawBalance
  rw [show (fun u => ((st.expenses.filter (fun e => e.trip_id == t.trip_id)).map
      (fun e => expenseContribution (st.refunds.filter
        (fun r => r.trip_id == t.trip_id)) e u)).sum
    + ((st.settlements.filter (fun s => s.trip_id == t.trip_id)).map
        (fun s => (if s.from_user_id == u then s.amount else 0)
          - (if s.to_user_id == u then s.amount else 0))).sum)
    = (fun u => ((st.expenses.filter (fun e => e.trip_id == t.trip_id)).map
      (fun e => expenseContribution (st.refunds.filter
        (fun r => r.trip_id == t.trip_id)) e u)).sum
    + ((st.settlements.filter (fun s => s.trip_id == t.trip_id)).map
        (fun s => (if s.from_user_id == u then s.amount else 0)
          - (if s.to_user_id == u then s.amount else 0))).sum) from rfl]
  rw [sum_map_add_distrib]
  have hexp_zero : (U.map (fun u =>
      ((st.expenses.filter (fun e => e.trip_id == t.trip_id)).map
        (fun e => expenseContribution (st.refunds.filter
          (fun r => r.trip_id == t.trip_id)) e u)).sum)).sum = 0 := by
    rw [sum_map_swap]
    rw [List.sum_eq_zero]
    intro x hx
    rcases List.mem_map.mp hx with ⟨e, he, rfl⟩
    have he2 := List.mem_filter.mp he
    have htrip : e.trip_id = t.trip_id := by
      have := he2.2
      simpa using this
    obtain ⟨hps, hss, hpos, hpm, hsm⟩ := hexp e he2.1 htrip
    refine expenseContribution_total U hU _ e hps hss hpos
      (fun p hp => hmemU _ (hpm p hp).2)
      (fun s hs => hmemU _ (hsm s hs).2) ?_
    intro r hr
    have hr2 := List.mem_filter.mp (List.mem_filter.mp hr).1
    have hrtrip : r.trip_id = t.trip_id := by
      have := hr2.2
      simpa using this
    obtain ⟨hra, hrne, hrm⟩ := href r hr2.1 hrtrip
    exact ⟨hrne, fun v hv => hmemU _ (hrm v hv)⟩
  have hset_zero : (U.map (fun u =>
      ((st.settlements.filter (fun s => s.trip_id == t.trip_id)).map
        (fun s => (if s.from_user_id == u then s.amount else 0)
          - (if s.to_user_id == u then s.amount else 0))).sum)).sum = 0 := by
    rw [sum_map_swap]
    rw [List.sum_eq_zero]
    intro x hx
    rcases List.mem_map.mp hx with ⟨s, hs, rfl⟩
    have hs2 := List.mem_filter.mp hs
    have htrip : s.trip_id = t.trip_id := by
      have := hs2.2
      simpa using this
    obtain ⟨hsa, hsf, hst⟩ := hset s hs2.1 htrip
    exact settlement_delta_total U hU s (hmemU _ hsf) (hmemU _ hst)
  rw [hexp_zero, hset_zero]
  ring

/-! Claim theorems. -/

/-- C1 (amended): for every well-formed trip the member balances sum to
exactly zero before the final rounding, and the sum of the returned
(rounded) balances is zero within 0.005 times the number of members; the
flat 0.01 tolerance of the original claim fails once more than two members
carry rounding error, see the counterexample. -/
theorem C1_theorem (st : Store) (t : Trip) (h : WellFormedTrip st t) :
    ((firstDedup (t.members.map (fun m => m.user_id))).map
      (fun u => rawBalance t st.expenses st.refunds st.settlements u)).sum = 0 ∧
    |((get_trip_balances st t).map (fun b => b.balance)).sum|
      ≤ (t.members.length : ℚ) / 200 := by
  have hzero := rawBalance_sum_zero st t h
  refine ⟨hzero, ?_⟩
  set U := firstDedup (t.members.map (fun m => m.user_id)) with hUdef
  set f := fun u => rawBalance t st.expenses st.refunds st.settlements u with hfdef
  have hmap : (get_trip_balances st t).map (fun b => b.balance)
      = U.map (fun u => round2 (f u)) := by
    unfold get_trip_balances
    rw [List.map_map]
    rfl
  rw [hmap]
  have hdecomp : U.map (fun u => round2 (f u))
      = U.map (fun u => (round2 (f u) - f u) + f u) := by
    refine List.map_congr_left ?_
    intro u hu
    ring
  rw [hdecomp, sum_map_add_distrib, hzero, add_zero]
  calc |(U.map (fun u => round2 (f u) - f u)).sum|
      ≤ ((U.map (fun u => round2 (f u) - f u)).map (fun x => |x|)).sum :=
        abs_sum_le_sum_abs_list _
    _ = (U.map (fun u => |round2 (f u) - f u|)).sum := by rw [List.map_map]; rfl
    _ ≤ ((U.map (fun u => |round2 (f u) - f u|)).length : ℚ) * (1/200) := by
        refine sum_le_length_mul _ _ ?_ (by norm_num)
        intro x hx
        rcases List.mem_map.mp hx with ⟨u, hu, rfl⟩
        exact abs_round2_sub (f u)
    _ ≤ (t.members.length : ℚ) * (1/200) := by
        rw [List.length_map]
        have h2 : U.length ≤ t.members.length := by
          have h3 := length_firstDedup_le (t.members.map (fun m => m.user_id))
          simpa using h3
        have h4 : (U.length : ℚ) ≤ (t.members.length : ℚ) := by exact_mod_cast h2
        nlinarith
    _ = (t.members.length : ℚ) / 200 := by ring

/-- C1 counterexample: the seven-member snapshot is well-formed in the
sense of the claim, yet the returned balances (0.86 for M0 and -0.14 for
each of the six others) sum to 0.02, outside the claimed 0.01 tolerance. -/
theorem C1_counterexample :
    WellFormedTrip store_c1 trip_c1 ∧
    ¬ |((get_trip_balances store_c1 trip_c1).map (fun b => b.balance)).sum|
      ≤ 1/100 := by
  constructor
  · refine ⟨?_, ?_, ?_⟩
    · intro e he htrip
      simp only [store_c1, List.mem_singleton] at he
      subst he
      refine ⟨by norm_num [expense_c1], by norm_num [expense_c1],
        by norm_num [expense_c1], ?_, ?_⟩
      · intro p hp
        simp only [expense_c1] at hp
        fin_cases hp
        exact ⟨by norm_num, by simp [trip_c1]⟩
      · intro s hs
        simp only [expense_c1] at hs
        fin_cases hs <;> exact ⟨by norm_num, by simp [trip_c1]⟩
    · intro r hr htrip
      simp only [store_c1, List.mem_singleton] at hr
      subst hr
      refine ⟨by norm_num [refund_c1], by simp [refund_c1], ?_⟩
      intro u hu
      simp only [refund_c1, List.mem_singleton] at hu
      subst hu
      simp [trip_c1]
    · intro s hs htrip
      simp only [store_c1, List.not_mem_nil] at hs
  · simp [get_trip_balances, store_c1, trip_c1, expense_c1, refund_c1,
      firstDedup, memberName, rawBalance, expenseContribution, refundsFor,
      paidByMember, refundDebits, refundDebit, splitDebit, round2]
    norm_num [round_eq]
    rw [abs_of_pos] <;> norm_num

/-- C1 witness: the two-member refund snapshot satisfies the well-formedness
hypothesis and hence the amended zero-sum bound. -/
theorem C1_witness :
    WellFormedTrip store_c2 trip_c2 ∧
    (((firstDedup (trip_c2.members.map (fun m => m.user_id))).map
      (fun u => rawBalance trip_c2 store_c2.expenses store_c2.refunds
        store_c2.settlements u)).sum = 0 ∧
    |((get_trip_balances store_c2 trip_c2).map (fun b => b.balance)).sum|
      ≤ (trip_c2.members.length : ℚ) / 200) := by
  have hwf : WellFormedTrip store_c2 trip_c2 := by
    refine ⟨?_, ?_, ?_⟩
    · intro e he htrip
      simp only [store_c2, List.mem_singleton] at he
      subst he
      refine ⟨by norm_num [expense_c2], by norm_num [expense_c2],
        by norm_num [expense_c2], ?_, ?_⟩
      · intro p hp
        simp only [expense_c2] at hp
        fin_cases hp
        exact ⟨by norm_num, by simp [trip_c2]⟩
      · intro s hs
        simp only [expense_c2] at hs
        fin_cases hs <;> exact ⟨by norm_num, by simp [trip_c2]⟩
    · intro r hr htrip
      simp only [store_c2, List.mem_singleton] at hr
      subst hr
      refine ⟨by norm_num [refund_c2], by simp [refund_c2], ?_⟩
      intro u hu
      simp only [refund_c2, List.mem_singleton] at hu
      subst hu
      simp [trip_c2]
    · intro s hs htrip
      simp only [store_c2, List.not_mem_nil] at hs
  exact ⟨hwf, C1_theorem store_c2 trip_c2 hwf⟩

/-- C2: on the worked example (expense 3000 paid by A, split 1500/1500,
refund 1500 to B) the endpoint returns +2250 for A and -2250 for B. -/
theorem C2_theorem :
    get_trip_balances store_c2 trip_c2
      = [⟨"A", "A", 2250⟩, ⟨"B", "B", -2250⟩] := by
  simp [get_trip_balances, store_c2, trip_c2, expense_c2, refund_c2,
    firstDedup, memberName, rawBalance, expenseContribution, refundsFor,
    paidByMember, refundDebits, refundDebit, splitDebit, round2]
  norm_num [round_eq]

/-- C3 (amended): a zero-total expense triggers no division (the split pass
is skipped by the original_amount > 0 guard, and the per-recipient division
only runs inside a non-empty recipient loop), and its split pass contributes
nothing; but its payer shares are still credited and its refund debits still
applied, so the expense only contributes nothing when those are all zero. -/
theorem C3_theorem (rs : List Refund) (e : Expense) (uid : String)
    (h : e.total_amount = 0) :
    expenseContribution rs e uid
      = paidByMember e uid - refundDebits (refundsFor rs e.expense_id) uid ∧
    ((∀ p ∈ e.payers, p.amount = 0) → refundsFor rs e.expense_id = [] →
      expenseContribution rs e uid = 0) := by
  have hsplit : splitDebit e (e.total_amount - ((refundsFor rs e.expense_id).map
      (fun r => r.amount)).sum) uid = 0 := by
    unfold splitDebit
    rw [if_neg]
    rintro ⟨h1, h2⟩
    rw [h] at h2
    exact lt_irrefl 0 h2
  have hmain : expenseContribution rs e uid
      = paidByMember e uid - refundDebits (refundsFor rs e.expense_id) uid := by
    unfold expenseContribution
    rw [hsplit]
    ring
  refine ⟨hmain, ?_⟩
  intro hp hre
  rw [hmain, hre]
  have hpaid : paidByMember e uid = 0 := by
    unfold paidByMember
    rw [List.sum_eq_zero]
    intro x hx
    rcases List.mem_map.mp hx with ⟨p, hpf, rfl⟩
    exact hp p (List.mem_of_mem_filter hpf)
  rw [hpaid]
  simp [refundDebits]

/-- C3 witness: the zero-total expense with payer share 10 instantiates the
amended statement. -/
theorem C3_witness :
    expense_c3.total_amount = 0 ∧
    (expenseContribution [] expense_c3 "A"
      = paidByMember expense_c3 "A"
        - refundDebits (refundsFor [] expense_c3.expense_id) "A" ∧
    ((∀ p ∈ expense_c3.payers, p.amount = 0) →
      refundsFor [] expense_c3.expense_id = [] →
      expenseContribution [] expense_c3 "A" = 0)) :=
  ⟨rfl, C3_theorem [] expense_c3 "A" rfl⟩

/-- C3 counterexample: the zero-total expense with payer share 10 changes
the balance of A from 0 to 10, so it does not contribute nothing. -/
theorem C3_counterexample :
    expense_c3.total_amount = 0 ∧
    get_trip_balances store_c3 trip_c3 = [⟨"A", "A", 10⟩] ∧
    get_trip_balances store_c3_base trip_c3 = [⟨"A", "A", 0⟩] := by
  refine ⟨rfl, ?_, ?_⟩
  · simp [get_trip_balances, store_c3, trip_c3, expense_c3, firstDedup,
      memberName, rawBalance, expenseContribution, refundsFor, paidByMember,
      refundDebits, refundDebit, splitDebit, round2]
    norm_num [round_eq]
  · simp [get_trip_balances, store_c3_base, trip_c3, firstDedup, memberName,
      rawBalance, round2]

/-- C4 (amended): none of the record-accepting operations rejects a negative
amount: whenever the trip/expense lookups succeed, create_refund,
create_settlement and create_expense accept the record with its negative
amount unchanged and store it, where the balance computation folds it in. -/
theorem C4_theorem :
    (∀ (st : Store) (u i : String) (req : RefundCreate) (e : Expense),
      st.expenses.find? (fun x => x.expense_id == req.expense_id) = some e →
      (st.trips.find? (fun t => t.trip_id == e.trip_id && isMemberOf t u)).isSome
        = true →
      req.amount < 0 →
      ∃ st2, create_refund st u i req = Except.ok
          (st2, ⟨i, req.expense_id, e.trip_id, req.amount, req.refunded_to⟩) ∧
        (⟨i, req.expense_id, e.trip_id, req.amount, req.refunded_to⟩ : Refund)
          ∈ st2.refunds) ∧
    (∀ (st : Store) (u i : String) (req : SettlementCreate) (tr : Trip),
      st.trips.find? (fun t => t.trip_id == req.trip_id && isMemberOf t u)
        = some tr →
      isMemberOf tr req.from_user_id = true →
      isMemberOf tr req.to_user_id = true →
      req.amount < 0 →
      ∃ st2, create_settlement st u i req = Except.ok
          (st2, ⟨i, req.trip_id, req.from_user_id, req.to_user_id, req.amount⟩) ∧
        (⟨i, req.trip_id, req.from_user_id, req.to_user_id, req.amount⟩ :
          Settlement) ∈ st2.settlements) ∧
    (∀ (st : Store) (u i : String) (req : ExpenseCreate),
      (st.trips.find? (fun t => t.trip_id == req.trip_id && isMemberOf t u)).isSome
        = true →
      (∃ p ∈ req.payers, p.amount < 0) →
      ∃ st2, create_expense st u i req = Except.ok
          (st2, ⟨i, req.trip_id, req.total_amount, req.payers, req.splits⟩) ∧
        (⟨i, req.trip_id, req.total_amount, req.payers, req.splits⟩ : Expense)
          ∈ st2.expenses) := by
  refine ⟨?_, ?_, ?_⟩
  · intro st u i req e hfind hsome hneg
    rcases Option.isSome_iff_exists.mp hsome with ⟨tr, htr⟩
    refine ⟨{ st with refunds := st.refunds ++
      [⟨i, req.expense_id, e.trip_id, req.amount, req.refunded_to⟩] }, ?_, ?_⟩
    · simp [create_refund, hfind, htr]
    · simp
  · intro st u i req tr htr hfrom hto hneg
    unfold isMemberOf at hfrom hto
    refine ⟨{ st with settlements := st.settlements ++
      [⟨i, req.trip_id, req.from_user_id, req.to_user_id, req.amount⟩] }, ?_, ?_⟩
    · simp [create_settlement, htr, hfrom, hto]
    · simp
  · intro st u i req hsome hneg
    rcases Option.isSome_iff_exists.mp hsome with ⟨tr, htr⟩
    refine ⟨{ st with expenses := st.expenses ++
      [⟨i, req.trip_id, req.total_amount, req.payers, req.splits⟩] }, ?_, ?_⟩
    · simp [create_expense, htr]
    · simp

/-- C4 witness: the negative refund request on the concrete store satisfies
every lookup hypothesis and is accepted and stored. -/
theorem C4_witness :
    (store_c4.expenses.find? (fun x => x.expense_id == req_c4.expense_id)
      = some expense_c4) ∧
    ((store_c4.trips.find? (fun t => t.trip_id == expense_c4.trip_id
      && isMemberOf t "A")).isSome = true) ∧
    req_c4.amount < 0 ∧
    (∃ st2, create_refund store_c4 "A" "r4" req_c4 = Except.ok
        (st2, ⟨"r4", req_c4.expense_id, expense_c4.trip_id, req_c4.amount,
          req_c4.refunded_to⟩) ∧
      (⟨"r4", req_c4.expense_id, expense_c4.trip_id, req_c4.amount,
        req_c4.refunded_to⟩ : Refund) ∈ st2.refunds) := by
  have h1 : store_c4.expenses.find? (fun x => x.expense_id == req_c4.expense_id)
      = some expense_c4 := by
    simp [store_c4, expense_c4, req_c4]
  have h2 : (store_c4.trips.find? (fun t => t.trip_id == expense_c4.trip_id
      && isMemberOf t "A")).isSome = true := by
    simp [store_c4, trip_c4, expense_c4, isMemberOf]
  have h3 : req_c4.amount < 0 := by norm_num [req_c4]
  exact ⟨h1, h2, h3, C4_theorem.1 store_c4 "A" "r4" req_c4 expense_c4 h1 h2 h3⟩

/-- C4 counterexample: the refund of -50 is accepted with no error and the
returned balances change from (+50, -50) to (+25, -25), so the negative
amount is folded into the balances rather than rejected. -/
theorem C4_counterexample :
    create_refund store_c4 "A" "r4" req_c4
      = Except.ok (store_c4r, ⟨"r4", "e4", "t4", -50, ["B"]⟩) ∧
    get_trip_balances store_c4 trip_c4 = [⟨"A", "A", 50⟩, ⟨"B", "B", -50⟩] ∧
    get_trip_balances store_c4r trip_c4 = [⟨"A", "A", 25⟩, ⟨"B", "B", -25⟩] := by
  refine ⟨?_, ?_, ?_⟩
  · simp [create_refund, store_c4, store_c4r, trip_c4, expense_c4, req_c4,
      isMemberOf]
  · simp [get_trip_balances, store_c4, trip_c4, expense_c4, firstDedup,
      memberName, rawBalance, expenseContribution, refundsFor, paidByMember,
      refundDebits, refundDebit, splitDebit, round2]
    norm_num [round_eq]
  · simp [get_trip_balances, store_c4, store_c4r, trip_c4, expense_c4,
      firstDedup, memberName, rawBalance, expenseContribution, refundsFor,
      paidByMember, refundDebits, refundDebit, splitDebit, round2]
    norm_num [round_eq]

/-- C5 (amended): get_trip_balances returns exactly one entry per distinct
member id of the member list, in order, always carrying the display name of
a member with that id; a reference to an id outside the member list is
skipped silently, producing neither an entry nor the name Unknown. -/
theorem C5_theorem (st : Store) (t : Trip) :
    (get_trip_balances st t).map (fun b => b.user_id)
      = firstDedup (t.members.map (fun m => m.user_id)) ∧
    ∀ b ∈ get_trip_balances st t,
      ∃ m ∈ t.members, m.user_id = b.user_id ∧ m.name = b.name := by
  constructor
  · unfold get_trip_balances
    rw [List.map_map]
    exact List.map_id _
  · intro b hb
    unfold get_trip_balances at hb
    rcases List.mem_map.mp hb with ⟨uid, huid, rfl⟩
    have hmem : uid ∈ t.members.map (fun m => m.user_id) := mem_firstDedup.mp huid
    rcases List.mem_map.mp hmem with ⟨m0, hm0, rfl⟩
    cases hfind : t.members.reverse.find? (fun m => m.user_id == m0.user_id) with
    | none =>
      exfalso
      have hnone := List.find?_eq_none.mp hfind m0 (List.mem_reverse.mpr hm0)
      simp at hnone
    | some m1 =>
      have hm1mem : m1 ∈ t.members :=
        List.mem_reverse.mp (List.mem_of_find?_eq_some hfind)
      have hm1id : m1.user_id = m0.user_id := by
        have hp := List.find?_some hfind
        simpa using hp
      refine ⟨m1, hm1mem, ?_, ?_⟩
      · simpa using hm1id
      · simp [memberName, hfind]

/-- C5 witness: on the dangling-payer store the id list is the member list
and the single entry carries the name of member A. -/
theorem C5_witness :
    ((get_trip_balances store_c5 trip_c5).map (fun b => b.user_id)
      = firstDedup (trip_c5.members.map (fun m => m.user_id))) ∧
    ((⟨"A", "A", -100⟩ : BalanceEntry) ∈ get_trip_balances store_c5 trip_c5 ∧
    ∃ m ∈ trip_c5.members,
      m.user_id = (⟨"A", "A", -100⟩ : BalanceEntry).user_id ∧
      m.name = (⟨"A", "A", -100⟩ : BalanceEntry).name) := by
  have hmem : (⟨"A", "A", -100⟩ : BalanceEntry) ∈ get_trip_balances store_c5 trip_c5 := by
    have hev : get_trip_balances store_c5 trip_c5 = [⟨"A", "A", -100⟩] := by
      simp [get_trip_balances, store_c5, trip_c5, expense_c5, firstDedup,
        memberName, rawBalance, expenseContribution, refundsFor, paidByMember,
        refundDebits, refundDebit, splitDebit, round2]
      norm_num [round_eq]
    rw [hev]
    exact List.mem_singleton.mpr rfl
  exact ⟨(C5_theorem store_c5 trip_c5).1, hmem,
    (C5_theorem store_c5 trip_c5).2 _ hmem⟩

/-- C5 counterexample: the payer reference to the non-member X yields no
balance entry at all (and no entry named Unknown), while the claim demands
an entry for X with the name Unknown. -/
theorem C5_counterexample :
    (∃ p ∈ expense_c5.payers, p.user_id = "X") ∧
    (∀ m ∈ trip_c5.members, m.user_id ≠ "X") ∧
    get_trip_balances store_c5 trip_c5 = [⟨"A", "A", -100⟩] ∧
    (∀ b ∈ get_trip_balances store_c5 trip_c5,
      b.user_id ≠ "X" ∧ b.name ≠ "Unknown") := by
  have hev : get_trip_balances store_c5 trip_c5 = [⟨"A", "A", -100⟩] := by
    simp [get_trip_balances, store_c5, trip_c5, expense_c5, firstDedup,
      memberName, rawBalance, expenseContribution, refundsFor, paidByMember,
      refundDebits, refundDebit, splitDebit, round2]
    norm_num [round_eq]
  refine ⟨⟨⟨"X", 100⟩, by simp [expense_c5], rfl⟩, ?_, hev, ?_⟩
  · intro m hm
    fin_cases hm
    simp
  · intro b hb
    rw [hev] at hb
    rcases List.mem_singleton.mp hb with rfl
    refine ⟨by simp, by simp⟩

/-- C6: every settlement of the trip shifts the pre-rounding balances by
adding its amount to from_user_id and subtracting it from to_user_id,
leaving every other member unchanged, relative to the balances computed
without that settlement. -/
theorem C6_theorem (t : Trip) (es : List Expense) (rs : List Refund)
    (ss : List Settlement) (s : Settlement) (uid : String)
    (h : s.trip_id = t.trip_id) :
    rawBalance t es rs (s :: ss) uid
      = rawBalance t es rs ss uid
        + ((if s.from_user_id = uid then s.amount else 0)
          - (if s.to_user_id = uid then s.amount else 0)) := by
  unfold rawBalance
  have hp : (s.trip_id == t.trip_id) = true := by simp [h]
  simp only [List.filter_cons, hp, if_true, List.map_cons, List.sum_cons]
  have hfrom : (if s.from_user_id == uid then s.amount else 0)
      = (if s.from_user_id = uid then s.amount else 0) := by
    by_cases hu : s.from_user_id = uid
    · simp [hu]
    · simp [hu]
  have hto : (if s.to_user_id == uid then s.amount else 0)
      = (if s.to_user_id = uid then s.amount else 0) := by
    by_cases hu : s.to_user_id = uid
    · simp [hu]
    · simp [hu]
  rw [hfrom, hto]
  ring

/-- C6 witness: the settlement of 30 from A to B on the empty two-member
trip instantiates the settlement-pass law. -/
theorem C6_witness :
    settlement_c6.trip_id = trip_c6.trip_id ∧
    rawBalance trip_c6 [] [] [settlement_c6] "A"
      = rawBalance trip_c6 [] [] [] "A"
        + ((if settlement_c6.from_user_id = "A" then settlement_c6.amount else 0)
          - (if settlement_c6.to_user_id = "A" then settlement_c6.amount else 0)) :=
  ⟨rfl, C6_theorem trip_c6 [] [] [] settlement_c6 "A" rfl⟩

lemma greedy_len_le (c d : PlannerEntry) (cs ds : List PlannerEntry) :
    (if c.2.2 - min c.2.2 d.2.2 < 1/100 then cs
      else (c.1, c.2.1, c.2.2 - min c.2.2 d.2.2) :: cs).length +
    (if d.2.2 - min c.2.2 d.2.2 < 1/100 then ds
      else (d.1, d.2.1, d.2.2 - min c.2.2 d.2.2) :: ds).length
      ≤ cs.length + ds.length + 1 := by
  rcases le_total c.2.2 d.2.2 with h | h
  · have hc : c.2.2 - min c.2.2 d.2.2 < 1/100 := by rw [min_eq_left h]; norm_num
    rw [if_pos hc]
    split <;> simp <;> omega
  · have hd : d.2.2 - min c.2.2 d.2.2 < 1/100 := by rw [min_eq_right h]; norm_num
    rw [if_pos hd]
    split <;> simp <;> omega

lemma sumAmt_nonneg (l : List PlannerEntry) (h : ∀ y ∈ l, 1/100 ≤ y.2.2) :
    0 ≤ sumAmt l := by
  unfold sumAmt
  refine List.sum_nonneg ?_
  intro x hx
  rcases List.mem_map.mp hx with ⟨y, hy, rfl⟩
  have := h y hy
  linarith

lemma sumAmt_cons (x : PlannerEntry) (xs : List PlannerEntry) :
    sumAmt (x :: xs) = x.2.2 + sumAmt xs := by
  simp [sumAmt]

lemma sumAmt_sortDesc (l : List PlannerEntry) : sumAmt (sortDesc l) = sumAmt l :=
  List.Perm.sum_eq (List.Perm.map _ (List.perm_insertionSort _ l))

lemma mem_sortDesc {x : PlannerEntry} {l : List PlannerEntry} :
    x ∈ sortDesc l ↔ x ∈ l :=
  (List.perm_insertionSort _ l).mem_iff

lemma stepEntry (x : PlannerEntry) (xs : List PlannerEntry) (a : ℚ)
    (hax : a ≤ x.2.2) (hcx : CentValue x.2.2) (hca : CentValue a)
    (hxsinv : ∀ y ∈ xs, CentValue y.2.2 ∧ 1/100 ≤ y.2.2) :
    sumAmt (if x.2.2 - a < 1/100 then xs else (x.1, x.2.1, x.2.2 - a) :: xs)
      = x.2.2 - a + sumAmt xs ∧
    (∀ y ∈ (if x.2.2 - a < 1/100 then xs else (x.1, x.2.1, x.2.2 - a) :: xs),
      CentValue y.2.2 ∧ 1/100 ≤ y.2.2) := by
  by_cases h : x.2.2 - a < 1/100
  · rw [if_pos h]
    have hzero : x.2.2 - a = 0 :=
      centValue_small_eq_zero (centValue_sub hcx hca) (by linarith) h
    exact ⟨by rw [hzero, zero_add], hxsinv⟩
  · rw [if_neg h]
    refine ⟨by rw [sumAmt_cons], ?_⟩
    intro y hy
    rcases List.mem_cons.mp hy with rfl | hy2
    · exact ⟨centValue_sub hcx hca, le_of_not_lt h⟩
    · exact hxsinv y hy2

lemma greedyFinal_exhausts : ∀ (cs ds : List PlannerEntry),
    (∀ y ∈ cs, CentValue y.2.2 ∧ 1/100 ≤ y.2.2) →
    (∀ y ∈ ds, CentValue y.2.2 ∧ 1/100 ≤ y.2.2) →
    sumAmt cs = sumAmt ds →
    greedyFinal cs ds = ([], []) := by
  intro cs ds
  induction cs, ds using greedyFinal.induct with
  | case1 ds =>
    intro _ hds hsum
    rw [greedyFinal]
    have hnil : ds = [] := by
      cases ds with
      | nil => rfl
      | cons d ds2 =>
        exfalso
        have hd := hds d (List.mem_cons_self d ds2)
        have hrest : 0 ≤ sumAmt ds2 :=
          sumAmt_nonneg ds2 (fun y hy => (hds y (List.mem_cons_of_mem d hy)).2)
        rw [sumAmt_cons] at hsum
        have hz : sumAmt ([] : List PlannerEntry) = 0 := by simp [sumAmt]
        rw [hz] at hsum
        have := hd.2
        linarith
    rw [hnil]
  | case2 c cs =>
    intro hcs _ hsum
    exfalso
    have hc := hcs c (List.mem_cons_self c cs)
    have hrest : 0 ≤ sumAmt cs :=
      sumAmt_nonneg cs (fun y hy => (hcs y (List.mem_cons_of_mem c hy)).2)
    rw [sumAmt_cons] at hsum
    have hz : sumAmt ([] : List PlannerEntry) = 0 := by simp [sumAmt]
    rw [hz] at hsum
    have := hc.2
    linarith
  | case3 c cs d ds ih =>
    intro hcs hds hsum
    rw [greedyFinal]
    simp only [dite_eq_ite] at ih
    have hc := hcs c (List.mem_cons_self c cs)
    have hd := hds d (List.mem_cons_self d ds)
    have hca : CentValue (min c.2.2 d.2.2) := centValue_min hc.1 hd.1
    have hstepC := stepEntry c cs (min c.2.2 d.2.2) (min_le_left _ _) hc.1 hca
      (fun y hy => hcs y (List.mem_cons_of_mem c hy))
    have hstepD := stepEntry d ds (min c.2.2 d.2.2) (min_le_right _ _) hd.1 hca
      (fun y hy => hds y (List.mem_cons_of_mem d hy))
    refine ih hstepC.2 hstepD.2 ?_
    rw [hstepC.1, hstepD.1]
    rw [sumAmt_cons, sumAmt_cons] at hsum
    linarith

lemma greedySettlements_sum_le : ∀ (cur : String) (cs ds : List PlannerEntry),
    (∀ y ∈ cs, CentValue y.2.2 ∧ 1/100 ≤ y.2.2) →
    (∀ y ∈ ds, CentValue y.2.2 ∧ 1/100 ≤ y.2.2) →
    suggestedSum (greedySettlements cur cs ds) ≤ sumAmt cs := by
  intro cur cs ds
  induction cs, ds using greedySettlements.induct cur with
  | case1 ds =>
    intro _ _
    rw [greedySettlements]
    simp [suggestedSum, sumAmt]
  | case2 c cs =>
    intro hcs _
    rw [greedySettlements]
    have h0 : suggestedSum ([] : List SettlementSuggestion) = 0 := by
      simp [suggestedSum]
    rw [h0]
    exact sumAmt_nonneg _ (fun y hy => (hcs y hy).2)
  | case3 c cs d ds ih =>
    intro hcs hds
    rw [greedySettlements]
    simp only [dite_eq_ite] at ih
    have hc := hcs c (List.mem_cons_self c cs)
    have hd := hds d (List.mem_cons_self d ds)
    have hca : CentValue (min c.2.2 d.2.2) := centValue_min hc.1 hd.1
    have hstepC := stepEntry c cs (min c.2.2 d.2.2) (min_le_left _ _) hc.1 hca
      (fun y hy => hcs y (List.mem_cons_of_mem c hy))
    have hstepD := stepEntry d ds (min c.2.2 d.2.2) (min_le_right _ _) hd.1 hca
      (fun y hy => hds y (List.mem_cons_of_mem d hy))
    have hrec := ih hstepC.2 hstepD.2
    have hmin0 : 0 ≤ min c.2.2 d.2.2 := le_min (by linarith [hc.2]) (by linarith [hd.2])
    have happ : ∀ (l1 l2 : List SettlementSuggestion),
        suggestedSum (l1 ++ l2) = suggestedSum l1 + suggestedSum l2 := by
      intro l1 l2
      simp [suggestedSum]
    have hsingle : ∀ s : SettlementSuggestion, suggestedSum [s] = s.amount := by
      intro s
      simp [suggestedSum]
    rw [sumAmt_cons]
    by_cases hemit : (1 : ℚ)/100 < min c.2.2 d.2.2
    · rw [if_pos hemit, happ, hsingle]
      have hround : round2 (min c.2.2 d.2.2) = min c.2.2 d.2.2 := round2_cent_id hca
      simp only [hround]
      rw [hstepC.1] at hrec
      linarith
    · rw [if_neg hemit, happ]
      have h0 : suggestedSum ([] : List SettlementSuggestion) = 0 := by
        simp [suggestedSum]
      rw [h0, zero_add]
      rw [hstepC.1] at hrec
      linarith

lemma greedySettlements_mem_ids : ∀ (cur : String) (cs ds : List PlannerEntry)
    (s : SettlementSuggestion), s ∈ greedySettlements cur cs ds →
    s.to_user_id ∈ cs.map (fun x => x.1) ∧ s.from_user_id ∈ ds.map (fun x => x.1) := by
  intro cur cs ds
  induction cs, ds using greedySettlements.induct cur with
  | case1 ds =>
    intro s hs
    rw [greedySettlements] at hs
    cases hs
  | case2 c cs =>
    intro s hs
    rw [greedySettlements] at hs
    cases hs
  | case3 c cs d ds ih =>
    intro s hs
    rw [greedySettlements] at hs
    simp only [dite_eq_ite] at ih
    rcases List.mem_append.mp hs with hs1 | hs2
    · by_cases hemit : (1 : ℚ)/100 < min c.2.2 d.2.2
      · rw [if_pos hemit] at hs1
        rcases List.mem_singleton.mp hs1 with rfl
        exact ⟨by simp, by simp⟩
      · rw [if_neg hemit] at hs1
        cases hs1
    · have hrec := ih s hs2
      constructor
      · have hsub : ∀ z, z ∈ (if c.2.2 - min c.2.2 d.2.2 < 1/100 then cs
            else (c.1, c.2.1, c.2.2 - min c.2.2 d.2.2) :: cs).map (fun x => x.1) →
            z ∈ (c :: cs).map (fun x => x.1) := by
          intro z hz
          by_cases h : c.2.2 - min c.2.2 d.2.2 < 1/100
          · rw [if_pos h] at hz
            simp only [List.map_cons]
            exact List.mem_cons_of_mem _ hz
          · rw [if_neg h] at hz
            simp only [List.map_cons] at hz ⊢
            exact hz
        exact hsub _ hrec.1
      · have hsub : ∀ z, z ∈ (if d.2.2 - min c.2.2 d.2.2 < 1/100 then ds
            else (d.1, d.2.1, d.2.2 - min c.2.2 d.2.2) :: ds).map (fun x => x.1) →
            z ∈ (d :: ds).map (fun x => x.1) := by
          intro z hz
          by_cases h : d.2.2 - min c.2.2 d.2.2 < 1/100
          · rw [if_pos h] at hz
            simp only [List.map_cons]
            exact List.mem_cons_of_mem _ hz
          · rw [if_neg h] at hz
            simp only [List.map_cons] at hz ⊢
            exact hz
        exact hsub _ hrec.2

/-- C7: a member whose every balance entry is exactly +0.01 or -0.01 lands
in neither the creditor nor the debtor list and is named by no suggestion,
while an entry of +0.02 joins the creditors and one of -0.02 the debtors. -/
theorem C7_theorem (bs : List BalanceEntry) (cur : String) (u : String) :
    ((∀ b ∈ bs, b.user_id = u → b.balance = 1/100 ∨ b.balance = -(1/100)) →
      ((∀ c ∈ creditorsOf bs, c.1 ≠ u) ∧ (∀ d ∈ debtorsOf bs, d.1 ≠ u) ∧
       (∀ s ∈ suggestSettlements bs cur,
         s.from_user_id ≠ u ∧ s.to_user_id ≠ u))) ∧
    (∀ b ∈ bs,
      (b.balance = 2/100 → (b.user_id, b.name, b.balance) ∈ creditorsOf bs) ∧
      (b.balance = -(2/100) → (b.user_id, b.name, -b.balance) ∈ debtorsOf bs)) := by
  constructor
  · intro hbal
    have hcred : ∀ c ∈ creditorsOf bs, c.1 ≠ u := by
      intro c hc hcu
      unfold creditorsOf at hc
      rcases List.mem_map.mp hc with ⟨b, hbf, rfl⟩
      rcases List.mem_filter.mp hbf with ⟨hbmem, hcond⟩
      have hgt : (1 : ℚ)/100 < b.balance := of_decide_eq_true hcond
      rcases hbal b hbmem hcu with h1 | h1 <;> rw [h1] at hgt <;> norm_num at hgt
    have hdebt : ∀ d ∈ debtorsOf bs, d.1 ≠ u := by
      intro d hd hdu
      unfold debtorsOf at hd
      rcases List.mem_map.mp hd with ⟨b, hbf, rfl⟩
      rcases List.mem_filter.mp hbf with ⟨hbmem, hcond⟩
      have hlt : b.balance < -((1 : ℚ)/100) := of_decide_eq_true hcond
      rcases hbal b hbmem hdu with h1 | h1 <;> rw [h1] at hlt <;> norm_num at hlt
    refine ⟨hcred, hdebt, ?_⟩
    intro s hs
    unfold suggestSettlements at hs
    have hmem := greedySettlements_mem_ids cur _ _ s hs
    constructor
    · intro hequ
      rcases List.mem_map.mp hmem.2 with ⟨d0, hd0, heq0⟩
      exact absurd (heq0.trans hequ) (hdebt d0 (mem_sortDesc.mp hd0))
    · intro hequ
      rcases List.mem_map.mp hmem.1 with ⟨c0, hc0, heq0⟩
      exact absurd (heq0.trans hequ) (hcred c0 (mem_sortDesc.mp hc0))
  · intro b hb
    constructor
    · intro h2
      unfold creditorsOf
      refine List.mem_map.mpr ⟨b, List.mem_filter.mpr ⟨hb, ?_⟩, rfl⟩
      exact decide_eq_true (by rw [h2]; norm_num)
    · intro h2
      unfold debtorsOf
      refine List.mem_map.mpr ⟨b, List.mem_filter.mpr ⟨hb, ?_⟩, rfl⟩
      exact decide_eq_true (by rw [h2]; norm_num)

/-- C7 witness: on the balance list (+0.01, -0.01) the member A is in
neither planner list and no suggestion names A. -/
theorem C7_witness :
    (∀ b ∈ bs_c7, b.user_id = "A" →
      b.balance = 1/100 ∨ b.balance = -(1/100)) ∧
    ((∀ c ∈ creditorsOf bs_c7, c.1 ≠ "A") ∧
     (∀ d ∈ debtorsOf bs_c7, d.1 ≠ "A") ∧
     (∀ s ∈ suggestSettlements bs_c7 "INR",
       s.from_user_id ≠ "A" ∧ s.to_user_id ≠ "A")) := by
  have h1 : ∀ b ∈ bs_c7, b.user_id = "A" →
      b.balance = 1/100 ∨ b.balance = -(1/100) := by
    intro b hb
    fin_cases hb
    · intro _
      left
      rfl
    · intro _
      right
      rfl
  exact ⟨h1, (C7_theorem bs_c7 "INR" "A").1 h1⟩

/-- C8 (amended): when every balance is an exact multiple of 0.01 and the
creditor total equals the debtor total exactly, the greedy loop exhausts
both lists, and the sum of suggested amounts never exceeds the total
positive balance; zero-sum of the whole list within 0.01 is not enough,
and the suggested total can fall short of the creditor total, see the
counterexample. -/
theorem C8_theorem (bs : List BalanceEntry) (cur : String)
    (hcent : ∀ b ∈ bs, CentValue b.balance)
    (hsum : sumAmt (creditorsOf bs) = sumAmt (debtorsOf bs)) :
    plannerFinal bs = ([], []) ∧
    suggestedSum (suggestSettlements bs cur) ≤ sumAmt (creditorsOf bs) := by
  have hcinv : ∀ y ∈ sortDesc (creditorsOf bs), CentValue y.2.2 ∧ 1/100 ≤ y.2.2 := by
    intro y hy
    have hy2 : y ∈ creditorsOf bs := mem_sortDesc.mp hy
    unfold creditorsOf at hy2
    rcases List.mem_map.mp hy2 with ⟨b, hbf, rfl⟩
    rcases List.mem_filter.mp hbf with ⟨hbmem, hcond⟩
    have hgt : (1 : ℚ)/100 < b.balance := of_decide_eq_true hcond
    exact ⟨hcent b hbmem, le_of_lt hgt⟩
  have hdinv : ∀ y ∈ sortDesc (debtorsOf bs), CentValue y.2.2 ∧ 1/100 ≤ y.2.2 := by
    intro y hy
    have hy2 : y ∈ debtorsOf bs := mem_sortDesc.mp hy
    unfold debtorsOf at hy2
    rcases List.mem_map.mp hy2 with ⟨b, hbf, rfl⟩
    rcases List.mem_filter.mp hbf with ⟨hbmem, hcond⟩
    have hlt : b.balance < -((1 : ℚ)/100) := of_decide_eq_true hcond
    exact ⟨centValue_neg (hcent b hbmem), by simp only []; linarith⟩
  have hsum2 : sumAmt (sortDesc (creditorsOf bs)) = sumAmt (sortDesc (debtorsOf bs)) := by
    rw [sumAmt_sortDesc, sumAmt_sortDesc]
    exact hsum
  constructor
  · unfold plannerFinal
    exact greedyFinal_exhausts _ _ hcinv hdinv hsum2
  · unfold suggestSettlements
    have h := greedySettlements_sum_le cur (sortDesc (creditorsOf bs))
      (sortDesc (debtorsOf bs)) hcinv hdinv
    rwa [sumAmt_sortDesc] at h

/-- C8 witness: the balance list (+0.02, -0.02) meets both hypotheses and
the planner exhausts both lists with suggested total at most 0.02. -/
theorem C8_witness :
    (∀ b ∈ bs_w8, CentValue b.balance) ∧
    sumAmt (creditorsOf bs_w8) = sumAmt (debtorsOf bs_w8) ∧
    (plannerFinal bs_w8 = ([], []) ∧
     suggestedSum (suggestSettlements bs_w8 "INR") ≤ sumAmt (creditorsOf bs_w8)) := by
  have h1 : ∀ b ∈ bs_w8, CentValue b.balance := by
    intro b hb
    fin_cases hb
    · exact ⟨2, by norm_num⟩
    · exact ⟨-2, by norm_num⟩
  have h2 : sumAmt (creditorsOf bs_w8) = sumAmt (debtorsOf bs_w8) := by
    norm_num [sumAmt, creditorsOf, debtorsOf, bs_w8]
  exact ⟨h1, h2, C8_theorem bs_w8 "INR" h1 h2⟩

/-- C8 counterexample: the balances (+0.02, -0.01, -0.01) sum to exactly
zero, yet the creditor list is never exhausted, no suggestion is emitted,
and the suggested total misses the total positive balance by 0.02. -/
theorem C8_counterexample :
    ((bs_c8.map (fun b => b.balance)).sum = 0) ∧
    (plannerFinal bs_c8).1 ≠ [] ∧
    suggestSettlements bs_c8 "INR" = [] ∧
    ¬ |suggestedSum (suggestSettlements bs_c8 "INR")
        - sumAmt (creditorsOf bs_c8)| ≤ 1/100 := by
  have hc : sortDesc (creditorsOf bs_c8) = [("A", "A", 1/50)] := by
    norm_num [sortDesc, creditorsOf, bs_c8, List.insertionSort]
  have hd : sortDesc (debtorsOf bs_c8) = [] := by
    norm_num [sortDesc, debtorsOf, bs_c8, List.insertionSort]
  refine ⟨by norm_num [bs_c8], ?_, ?_, ?_⟩
  · unfold plannerFinal
    rw [hc, hd, greedyFinal]
    simp
  · unfold suggestSettlements
    rw [hc, hd, greedySettlements]
  · unfold suggestSettlements
    rw [hc, hd, greedySettlements]
    have hs0 : suggestedSum ([] : List SettlementSuggestion) = 0 := by
      simp [suggestedSum]
    rw [hs0]
    norm_num [sumAmt, creditorsOf, bs_c8]
    rw [abs_of_pos] <;> norm_num

/-- C9: delete_trip on the snapshot removes the trip, its expense and its
refund, but its settlement record survives in db.settlements, contradicting
the all-dependent-records cascade of the spec. -/
theorem C9_theorem :
    delete_trip store_c9 "A" "t9"
      = Except.ok ⟨[], [], [], [settlement_c9]⟩ ∧
    settlement_c9.trip_id = trip_c9.trip_id := by
  constructor
  · simp [delete_trip, store_c9, trip_c9, expense_c9, refund_c9, settlement_c9]
  · rfl

/-- C10 (amended): the greedy loop always terminates after at most
len(creditors) + len(debtors) iterations: subtracting min(credit, debt)
zeroes at least one of the two current entries, which therefore drops below
the 0.01 threshold and advances its pointer; the transferred amount need
not exceed 0.01 (see the counterexample), only the bound survives. -/
theorem C10_theorem (creditors debtors : List PlannerEntry) :
    greedySteps creditors debtors ≤ creditors.length + debtors.length := by
  induction creditors, debtors using greedySteps.induct with
  | case1 ds =>
    rw [greedySteps]
    exact Nat.zero_le _
  | case2 c cs =>
    rw [greedySteps]
    exact Nat.zero_le _
  | case3 c cs d ds ih =>
    rw [greedySteps]
    simp only [dite_eq_ite] at ih
    have hlen := greedy_len_le c d cs ds
    simp only [List.length_cons]
    omega

/-- C10 counterexample: on the balances (+0.03, -0.02, -0.02) the second
iteration transfers exactly 0.01 while a creditor and a debtor both remain,
so the transferred amounts do not all exceed 0.01. -/
theorem C10_counterexample :
    greedyTransfers (sortDesc (creditorsOf bs_c10)) (sortDesc (debtorsOf bs_c10))
      = [1/50, 1/100] ∧
    ¬ (∀ a ∈ greedyTransfers (sortDesc (creditorsOf bs_c10))
        (sortDesc (debtorsOf bs_c10)), 1/100 < a) := by
  have hc : sortDesc (creditorsOf bs_c10) = [("A", "A", 3/100)] := by
    norm_num [sortDesc, creditorsOf, bs_c10, List.insertionSort]
  have hd : sortDesc (debtorsOf bs_c10) = [("B", "B", 1/50), ("C", "C", 1/50)] := by
    norm_num [sortDesc, debtorsOf, bs_c10, List.insertionSort, List.orderedInsert]
  have hev : greedyTransfers (sortDesc (creditorsOf bs_c10))
      (sortDesc (debtorsOf bs_c10)) = [1/50, 1/100] := by
    rw [hc, hd]
    rw [greedyTransfers]
    norm_num
    rw [greedyTransfers]
    norm_num
    rw [greedyTransfers]
  refine ⟨hev, ?_⟩
  intro hall
  have := hall (1/100) (by rw [hev]; simp)
  norm_num at this

end EZTrip
